import Mathlib

/-!
Shallow embedding of the Ali/Qwen chat client (`src/reyfetch/ritem/rali.py`):
response extractors, the streaming generator pair (`extract_response_generator`),
bounded chat-history management (`get_chat_records_history`,
`append_chat_records_history`), request-parameter preparation (`request`), the
`chat` orchestrator and the persistence step (`insert_db`).

Python `dict`s decoded from JSON are embedded as structures whose `Option`
fields distinguish a missing key (`none`) from a present value; a raised Python
exception is an `Except.error` carrying a `PyErr`; machine integers are `Int`;
the float `rand` parameter is embedded as `Rat` (multiplication by 2 and 4 and
the `== 2` comparison are exact in both models).
-/

set_option linter.unusedVariables false

namespace Reyfetch

/-- Message sender role (`ChatRecordRole`): `'system'`, `'user'` or `'assistant'`. -/
inductive Role where
  | system
  | user
  | assistant
deriving DecidableEq, Repr

/-- Usage token data (`ChatRecordToken`): keys `total`, `input`, `output`,
`output_think` (the last one may hold `None`). -/
structure ChatRecordToken where
  total : Int
  input : Int
  output : Int
  output_think : Option Int
deriving DecidableEq, Repr

/-- One normalized web citation item (`ChatResponseWebItem`); `site` and `icon`
may hold `None`. -/
structure ChatResponseWebItem where
  site : Option String
  icon : Option String
  index : Int
  url : String
  title : String
deriving DecidableEq, Repr

/-- One chat record (the `ChatRecord` TypedDict): keys `time`, `role`,
`content`, `len`, `token`, `web`, `think`; `Option` fields may hold `None`. -/
structure ChatRecord where
  time : Int
  role : Role
  content : Option String
  len : Option Int
  token : Option ChatRecordToken
  web : Option (List ChatResponseWebItem)
  think : Option String
deriving DecidableEq, Repr

/-- Raw upstream search-result item as decoded from
`output.search_info.search_results[]`; `site_name` and `icon` are `none` when
the key is missing. -/
structure SearchResultItem where
  site_name : Option String
  icon : Option String
  index : Int
  url : String
  title : String
deriving DecidableEq, Repr

/-- Decoded `output.choices[0].message` object; `content` and
`reasoning_content` are `none` when the key is missing. -/
structure RespMessage where
  content : Option String
  reasoning_content : Option String
deriving DecidableEq, Repr

/-- Decoded `output` object: the first choice's message, plus the
`search_info.search_results` list (a missing `search_info` key or a missing
`search_results` key behaves exactly as the empty list under the source's
`.get('search_info', {}).get('search_results', [])`, so both are embedded
as `[]`). -/
structure RespOutput where
  message : RespMessage
  search_results : List SearchResultItem
deriving DecidableEq, Repr

/-- Decoded `usage` object. `reasoning_tokens` is the value of
`usage.output_tokens_details.reasoning_tokens` reached through the source's
`.get(..., {}).get(...)` chain, so a missing link yields `none`. -/
structure RespUsage where
  total_tokens : Int
  input_tokens : Int
  output_tokens : Int
  reasoning_tokens : Option Int
deriving DecidableEq, Repr

/-- One JSON-decoded response object (a full response or one stream chunk):
top-level keys `output` and `usage`, each possibly missing. -/
structure RespJson where
  output : Option RespOutput
  usage : Option RespUsage
deriving DecidableEq, Repr

/-- Python exceptions raised by the embedded code: `throw(ValueError, ...)`,
`throw(AssertionError, text)`, a `KeyError` from indexing a missing dict key,
and a `TypeError` from subscripting or adding to a `None` value. -/
inductive PyErr where
  | valueError
  | assertionError (msg : String)
  | keyError
  | typeError
deriving DecidableEq, Repr

/-- `FetchRequestAliQwen.extract_response_text`: the reply text
`output.choices[0].message.content`, or `None` when the `output` key is absent;
indexing a missing `content` key raises `KeyError`. -/
def extract_response_text (response_json : RespJson) : Except PyErr (Option String) :=
  match response_json.output with
  | none => .ok none
  | some output_data =>
    match output_data.message.content with
    | none => .error .keyError
    | some response_text => .ok (some response_text)

/-- `FetchRequestAliQwen.extract_response_token`: the usage token data, or
`None` when the `usage` key is absent. -/
def extract_response_token (response_json : RespJson) : Option ChatRecordToken :=
  match response_json.usage with
  | none => none
  | some token_data =>
    some { total := token_data.total_tokens
           input := token_data.input_tokens
           output := token_data.output_tokens
           output_think := token_data.reasoning_tokens }

/-- Normalization of one raw search-result item inside
`extract_response_web`: `site_name` is renamed to `site`, and an empty-string
or missing `site`/`icon` becomes `None`. -/
def normWebItem (item : SearchResultItem) : ChatResponseWebItem :=
  { site := match item.site_name with
      | none => none
      | some s => if s = "" then none else some s
    icon := match item.icon with
      | none => none
      | some s => if s = "" then none else some s
    index := item.index
    url := item.url
    title := item.title }

/-- `FetchRequestAliQwen.extract_response_web`: indexes `response_json['output']`
directly (raising `KeyError` when the `output` key is absent), normalizes each
search-result item, and maps an empty result list to `None` via
`web_data or None`. -/
def extract_response_web (response_json : RespJson) :
    Except PyErr (Option (List ChatResponseWebItem)) :=
  match response_json.output with
  | none => .error .keyError
  | some json_output =>
    let web_data := json_output.search_results.map normWebItem
    .ok (if web_data.isEmpty then none else some web_data)

/-- `FetchRequestAliQwen.extract_response_think`: indexes
`response_json['output']['choices'][0]['message']` (raising `KeyError` when the
`output` key is absent), then `response_think or None` maps a missing key or an
empty string to `None`. -/
def extract_response_think (response_json : RespJson) : Except PyErr (Option String) :=
  match response_json.output with
  | none => .error .keyError
  | some json_output =>
    match json_output.message.reasoning_content with
    | none => .ok none
    | some response_think => .ok (if response_think = "" then none else some response_think)

/-- `FetchRequestAliQwen.extract_response_record`: composes the four extractors
(in source order: text, token, web, think; the first raised exception
propagates) into one reply record with `role='assistant'`, `time = now()`, and
`len` computed from the text when it is present. -/
def extract_response_record (tnow : Int) (response_json : RespJson) :
    Except PyErr ChatRecord := do
  let response_text ← extract_response_text response_json
  let response_token := extract_response_token response_json
  let response_web ← extract_response_web response_json
  let response_think ← extract_response_think response_json
  let response_text_len : Option Int := response_text.map (fun t => (t.length : Int))
  .ok { time := tnow
        role := .assistant
        content := response_text
        len := response_text_len
        token := response_token
        web := response_web
        think := response_think }

/-! ## The persistence step (`insert_db`) -/

/-- One row of the `ali_qwen` table as filled by `insert_db` from a reply
record (the request-side columns `messages`, `model`, `request_time`,
`response_time` are filled earlier by `chat` from session context and are not
part of the reply record). -/
structure DbRecord where
  reply : Option String
  think : Option String
  web : Option (List ChatResponseWebItem)
  token_total : Int
  token_input : Int
  token_output : Int
  token_output_think : Option Int
deriving DecidableEq, Repr

/-- `FetchRequestAliQwen.insert_db`: builds the table row from the reply
record and hands it to the sink. Subscripting `record['token']['total']` when
`record['token']` is `None` raises `TypeError` before any write is issued. -/
def insert_db (record : ChatRecord) : Except PyErr DbRecord :=
  match record.token with
  | none => .error .typeError
  | some tk =>
    .ok { reply := record.content
          think := record.think
          web := record.web
          token_total := tk.total
          token_input := tk.input
          token_output := tk.output
          token_output_think := tk.output_think }

/-! ## The stream demultiplexer (`extract_response_generator`)

The underlying line iterator is embedded as a `List RespLine`: a line that does
not start with `'data:{'` or `'data: {'` is `noise` (the source discards it),
and a data line is `data j` where `j` is the JSON object decoded from the text
after the prefix. The closure state shared by the two generators
(`chat_record_reply`, the advancing iterator, `is_think_emptied`) is the
`StreamState`; the persistence sink's write log is carried in `writes`. -/

/-- One line of the streaming response body. -/
inductive RespLine where
  | noise
  | data (j : RespJson)
deriving DecidableEq, Repr

/-- Shared mutable state of the two generators returned by
`extract_response_generator`: the remaining lines of `response_iter`, the
`chat_record_reply` record both generators mutate, the `is_think_emptied`
flag, and the log of records handed to `insert_db`'s sink. -/
structure StreamState where
  lines : List RespLine
  reply : ChatRecord
  is_think_emptied : Bool
  writes : List DbRecord
deriving DecidableEq, Repr

/-- Python truthiness of an optional string: `None` and `''` are falsy. -/
def pyTruthy : Option String → Bool
  | none => false
  | some s => !s.isEmpty

/-- The scan at the head of `extract_response_generator`: discard lines until
the first data line, returning its JSON and the remaining iterator. -/
def firstDataLine : List RespLine → Option (RespJson × List RespLine)
  | [] => none
  | .noise :: rest => firstDataLine rest
  | .data j :: rest => some (j, rest)

/-- `FetchRequestAliQwen.extract_response_generator` up to the creation of the
two generators: scan for the first data line (`AssertionError` when none is
found), seed `chat_record_reply` from it via `extract_response_record`, and set
`is_think_emptied = not bool(chat_record_reply['think'])`. The returned
`StreamState` is the shared state both generators will read and mutate; no
write has happened yet. -/
def extract_response_generator (tnow : Int) (response_iter : List RespLine) :
    Except PyErr StreamState :=
  match firstDataLine response_iter with
  | none => .error (.assertionError "None")
  | some (response_json_first, rest) =>
    match extract_response_record tnow response_json_first with
    | .error e => .error e
    | .ok chat_record_reply =>
      .ok { lines := rest
            reply := chat_record_reply
            is_think_emptied := !pyTruthy chat_record_reply.think
            writes := [] }

/-- The generator mode argument of the inner `_generator` function. -/
inductive GenMode where
  | text
  | think
deriving DecidableEq, Repr

/-- Result of advancing a generator by one `next()` call: a yielded string,
normal completion (`StopIteration`), or a raised exception; each carries the
shared state as it stands afterwards. -/
inductive GenResult where
  | yield (s : String) (st : StreamState)
  | done (st : StreamState)
  | err (e : PyErr) (st : StreamState)
deriving DecidableEq, Repr

/-- The defaulting at the top of `_generator`:
`chat_record_reply['content'] = chat_record_reply['content'] or ''` and the
same for `'think'`. -/
def genDefaults (reply : ChatRecord) : ChatRecord :=
  { reply with
    content := some (reply.content.getD "")
    think := some (reply.think.getD "") }

/-- Per-data-chunk updates shared by both generator modes: `token` is
overwritten with this chunk's extracted usage (an absent usage overwrites a
present one), and `web` is extracted and assigned only while it is still
`None`. -/
def updateTokenWeb (j : RespJson) (reply : ChatRecord) : Except PyErr ChatRecord :=
  let reply := { reply with token := extract_response_token j }
  match reply.web with
  | some _ => .ok reply
  | none =>
    match extract_response_web j with
    | .error e => .error e
    | .ok response_web => .ok { reply with web := response_web }

/-- The `mode == 'text'` branch of the generator loop body for one data chunk:
after the token/web updates, a chunk with no reply text is skipped (`none` in
the second component), otherwise the text is appended to the accumulated
content and cached length and yielded. Appending to a `None` content or length
raises `TypeError`. -/
def textChunkStep (j : RespJson) (reply : ChatRecord) :
    Except PyErr (ChatRecord × Option String) :=
  match updateTokenWeb j reply with
  | .error e => .error e
  | .ok reply =>
    match extract_response_text j with
    | .error e => .error e
    | .ok none => .ok (reply, none)
    | .ok (some response_text) =>
      match reply.content, reply.len with
      | some c, some l =>
        .ok ({ reply with
               content := some (c ++ response_text)
               len := some (l + (response_text.length : Int)) },
             some response_text)
      | _, _ => .error .typeError

/-- Outcome of the `mode == 'think'` branch on one data chunk: either a think
fragment is yielded, or the chunk reported no think text and the generator
terminates (the `### Last.` branch). -/
inductive ThinkOut where
  | yld (s : String)
  | term
deriving DecidableEq, Repr

/-- The `mode == 'think'` branch of the generator loop body for one data chunk.
On a chunk with no think text (the `### Last.` branch) the source sets
`is_think_emptied = True` (done by the caller on `.term`), ASSIGNS this chunk's
reply text to `chat_record_reply['content']` (it does not append), adds the
text's length to the cached `len` when the text is present, and breaks.
Otherwise the think fragment is appended to the accumulated think text and
yielded. -/
def thinkChunkStep (j : RespJson) (reply : ChatRecord) :
    Except PyErr (ChatRecord × ThinkOut) :=
  match updateTokenWeb j reply with
  | .error e => .error e
  | .ok reply =>
    match extract_response_think j with
    | .error e => .error e
    | .ok none =>
      match extract_response_text j with
      | .error e => .error e
      | .ok none => .ok ({ reply with content := none }, .term)
      | .ok (some response_text) =>
        match reply.len with
        | none => .error .typeError
        | some l =>
          .ok ({ reply with
                 content := some response_text
                 len := some (l + (response_text.length : Int)) },
               .term)
    | .ok (some response_think) =>
      match reply.think with
      | none => .error .typeError
      | some th => .ok ({ reply with think := some (th ++ response_think) }, .yld response_think)

/-- The first `next()` on `_generator(mode)`: apply the content/think
defaulting, raise the ordering violation (`AssertionError`:
`'must first used up think generator'`) when the text generator is pulled
while `is_think_emptied` is still false, and otherwise yield the seed value
(the accumulated content for `'text'`, the accumulated think for
`'think'`). -/
def generator_start (mode : GenMode) (st : StreamState) : GenResult :=
  let st := { st with reply := genDefaults st.reply }
  match mode with
  | .text =>
    if st.is_think_emptied then
      .yield (st.reply.content.getD "") st
    else
      .err (.assertionError "must first used up think generator") st
  | .think => .yield (st.reply.think.getD "") st

/-- A subsequent `next()` on `_generator(mode)`: resume inside the `for` loop
over the shared line iterator. Non-data lines are discarded; on a data chunk
the token/web updates run and the mode branch decides whether to yield, skip,
terminate (think mode's break) or raise. When the iterator is exhausted the
loop's `else:` clause hands `chat_record_reply` to `insert_db` exactly once
(this happens for either mode, since the think generator's break is the only
path that skips it). -/
def generator_resume (mode : GenMode) : StreamState → GenResult
  | ⟨[], reply, emp, ws⟩ =>
    match insert_db reply with
    | .ok w => .done ⟨[], reply, emp, ws ++ [w]⟩
    | .error e => .err e ⟨[], reply, emp, ws⟩
  | ⟨.noise :: rest, reply, emp, ws⟩ => generator_resume mode ⟨rest, reply, emp, ws⟩
  | ⟨.data j :: rest, reply, emp, ws⟩ =>
    match mode with
    | .text =>
      match textChunkStep j reply with
      | .error e => .err e ⟨rest, reply, emp, ws⟩
      | .ok (reply', none) => generator_resume .text ⟨rest, reply', emp, ws⟩
      | .ok (reply', some t) => .yield t ⟨rest, reply', emp, ws⟩
    | .think =>
      match thinkChunkStep j reply with
      | .error e => .err e ⟨rest, reply, emp, ws⟩
      | .ok (reply', .term) => .done ⟨rest, reply', true, ws⟩
      | .ok (reply', .yld t) => .yield t ⟨rest, reply', emp, ws⟩
termination_by st => st.lines.length

/-- The loop part of draining `_generator(mode)` to completion, starting inside
the `for` loop: returns the list of yielded fragments, the final shared state,
and the raised exception if the drain ended in one. Mirrors `generator_resume`
applied repeatedly, but is structurally recursive on the line list. -/
def generator_drain_loop (mode : GenMode) :
    List RespLine → ChatRecord → Bool → List DbRecord →
    List String × StreamState × Option PyErr
  | [], reply, emp, ws =>
    match insert_db reply with
    | .ok w => ([], ⟨[], reply, emp, ws ++ [w]⟩, none)
    | .error e => ([], ⟨[], reply, emp, ws⟩, some e)
  | .noise :: rest, reply, emp, ws => generator_drain_loop mode rest reply emp ws
  | .data j :: rest, reply, emp, ws =>
    match mode with
    | .text =>
      match textChunkStep j reply with
      | .error e => ([], ⟨rest, reply, emp, ws⟩, some e)
      | .ok (reply', none) => generator_drain_loop .text rest reply' emp ws
      | .ok (reply', some t) =>
        let r := generator_drain_loop .text rest reply' emp ws
        (t :: r.1, r.2)
    | .think =>
      match thinkChunkStep j reply with
      | .error e => ([], ⟨rest, reply, emp, ws⟩, some e)
      | .ok (reply', .term) => ([], ⟨rest, reply', true, ws⟩, none)
      | .ok (reply', .yld t) =>
        let r := generator_drain_loop .think rest reply' emp ws
        (t :: r.1, r.2)

/-- Draining `_generator(mode)` from its first `next()` to completion: the
caller pulls until `StopIteration` (or a raised exception). -/
def generator_drain (mode : GenMode) (st : StreamState) :
    List String × StreamState × Option PyErr :=
  match generator_start mode st with
  | .err e st' => ([], st', some e)
  | .done st' => ([], st', none)
  | .yield s st' =>
    let r := generator_drain_loop mode st'.lines st'.reply st'.is_think_emptied st'.writes
    (s :: r.1, r.2)

/-- States of a generator that has been started and has only yielded so far
(the caller has pulled one or more elements and the generator is suspended at a
`yield`, neither finished nor failed). -/
inductive GenLive (mode : GenMode) : StreamState → StreamState → Prop
  | start {st st' : StreamState} {s : String} :
      generator_start mode st = .yield s st' → GenLive mode st st'
  | next {st a b : StreamState} {s : String} :
      GenLive mode st a → generator_resume mode a = .yield s b → GenLive mode st b

/-! ## The history store -/

/-- Resolution of a per-call optional parameter against the session-level
default: `if history_max_char is None: history_max_char = self.history_max_char`. -/
def resolveOpt (per_call instance_value : Option Int) : Option Int :=
  match per_call with
  | none => instance_value
  | some v => some v

/-- The scan of `get_chat_records_history` over the reversed history
(`chat_records_history[::-1]`), with the running `char_len` accumulator:
returns the index (from the newest end) of the first record at which either the
cumulative cached length exceeds `history_max_char` or the record's age exceeds
`history_max_time_us`, or `none` when no record triggers. The walrus
`char_len := char_len + chat_record['len']` runs only when `history_max_char`
is set; adding a `None` length raises `TypeError`. -/
def findBeyond (now_timestamp : Int) (history_max_char history_max_time_us : Option Int) :
    List ChatRecord → Int → Except PyErr (Option Nat)
  | [], _ => .ok none
  | chat_record :: rest, char_len =>
    match history_max_char with
    | some mc =>
      match chat_record.len with
      | none => .error .typeError
      | some l =>
        let char_len := char_len + l
        if mc < char_len then .ok (some 0)
        else
          match history_max_time_us with
          | some mt =>
            if mt < now_timestamp - chat_record.time then .ok (some 0)
            else
              match findBeyond now_timestamp history_max_char history_max_time_us rest char_len with
              | .error e => .error e
              | .ok none => .ok none
              | .ok (some i) => .ok (some (i + 1))
          | none =>
            match findBeyond now_timestamp history_max_char history_max_time_us rest char_len with
            | .error e => .error e
            | .ok none => .ok none
            | .ok (some i) => .ok (some (i + 1))
    | none =>
      match history_max_time_us with
      | some mt =>
        if mt < now_timestamp - chat_record.time then .ok (some 0)
        else
          match findBeyond now_timestamp history_max_char history_max_time_us rest char_len with
          | .error e => .error e
          | .ok none => .ok none
          | .ok (some i) => .ok (some (i + 1))
      | none =>
        match findBeyond now_timestamp history_max_char history_max_time_us rest char_len with
        | .error e => .error e
        | .ok none => .ok none
        | .ok (some i) => .ok (some (i + 1))

/-- `FetchRequestAliQwen.get_chat_records_history` on the stored sequence of
one index: per-call limits fall back to the session-level `self.history_max_char`
/ `self.history_max_time`; `history_max_time` is scaled by 1000; the scan runs
newest-first; with a trigger at index `i` (from the newest end) the oldest
records beyond the last `i` are dropped (`del chat_records_history[:-i]`, or
`clear()` at `i = 0`). The first component of the result is the returned
sequence; the second is the stored sequence afterwards (trimmed when `delete`
is true, untouched otherwise). -/
def get_chat_records_history (self_max_char self_max_time : Option Int)
    (now_timestamp : Int) (chat_records_history : List ChatRecord)
    (history_max_char history_max_time : Option Int) (delete : Bool) :
    Except PyErr (List ChatRecord × List ChatRecord) :=
  let history_max_char := resolveOpt history_max_char self_max_char
  let history_max_time := resolveOpt history_max_time self_max_time
  let history_max_time_us := history_max_time.map (· * 1000)
  match findBeyond now_timestamp history_max_char history_max_time_us
      chat_records_history.reverse 0 with
  | .error e => .error e
  | .ok none => .ok (chat_records_history, chat_records_history)
  | .ok (some i) =>
    let kept := chat_records_history.drop (chat_records_history.length - i)
    .ok (kept, if delete then kept else chat_records_history)

/-- One input turn for `append_chat_records_history` in its explicit-dict form
(the `ChatRecordsAppend` TypedDict): `time` and `role` keys may be missing,
`content` is required. -/
structure ChatRecordsAppend where
  time : Option Int
  role : Option Role
  content : String
deriving DecidableEq, Repr

/-- The polymorphic `records` argument of `append_chat_records_history`: a bare
string, a single dict, or a list mixing strings and dicts. -/
inductive AppendRecords where
  | str (s : String)
  | one (r : ChatRecordsAppend)
  | list (l : List (String ⊕ ChatRecordsAppend))
deriving DecidableEq, Repr

/-- The value held by the `content` key of one normalized entry in
`append_chat_records_history`: either a string, or — for a string ELEMENT of a
list input, where the source's comprehension builds `{'content': records}`
with `records` still bound to the WHOLE enclosing input list rather than the
element variable `record` — the raw input list itself. -/
inductive AppendContentVal where
  | str (s : String)
  | list (l : List (String ⊕ ChatRecordsAppend))
deriving DecidableEq, Repr

/-- Python `len()` of a content value: character count of a string, element
count of a list. -/
def pyLen : AppendContentVal → Int
  | .str s => (s.length : Int)
  | .list l => (l.length : Int)

/-- One entry produced by the first normalization step of
`append_chat_records_history`: `time` and `role` keys may be absent; the
`content` key holds a string, or the raw input list on the
`{'content': records}` path. -/
structure NormalizedAppend where
  time : Option Int
  role : Option Role
  content : AppendContentVal
deriving DecidableEq, Repr

/-- The input normalization of `append_chat_records_history`: a bare string
input becomes `[{'content': records}]` (at that point `records` IS the
string), a dict becomes a one-element list, and inside a list each bare
string element becomes `{'content': records}` — the WHOLE input list, since
the comprehension names `records` rather than its element variable `record`
— while dict elements pass through unchanged. -/
def normalizeAppends : AppendRecords → List NormalizedAppend
  | .str s => [{ time := none, role := none, content := .str s }]
  | .one r => [{ time := r.time, role := r.role, content := .str r.content }]
  | .list l =>
    l.map fun it =>
      match it with
      | .inl _ => { time := none, role := none, content := .list l }
      | .inr r => { time := r.time, role := r.role, content := .str r.content }

/-- One record as built by the second comprehension of
`append_chat_records_history`: same keys as `ChatRecord`, except that the
`content` key holds whatever value the normalization put there (a string, or
the raw input list on the `{'content': records}` path). -/
structure BuiltAppendRecord where
  time : Int
  role : Role
  content : AppendContentVal
  len : Int
  token : Option ChatRecordToken
  web : Option (List ChatResponseWebItem)
  think : Option String
deriving DecidableEq, Repr

/-- The record-building step of `append_chat_records_history`: `time` defaults
to `now()`, `role` defaults to `'user'`, `len` is the Python `len()` of the
value under the `content` key (character count for a string; element count for
the raw list), and `token`/`web`/`think` are `None`. -/
def buildAppendRecord (now_timestamp : Int) (record : NormalizedAppend) : BuiltAppendRecord :=
  { time := record.time.getD now_timestamp
    role := record.role.getD .user
    content := record.content
    len := pyLen record.content
    token := none
    web := none
    think := none }

/-- The full list of records built from one `records` argument. -/
def appendRecordsOf (now_timestamp : Int) (records : AppendRecords) : List BuiltAppendRecord :=
  (normalizeAppends records).map (buildAppendRecord now_timestamp)

/-- A built record as a store record. The store embedding types record content
as `Option String`, which is exact for every record the source builds EXCEPT
on the `{'content': records}` path, where the raw input list is stored as the
content value; such a record has no image in the string-typed `ChatRecord`,
and the conversion is `none` exactly there. -/
def builtToChatRecord (b : BuiltAppendRecord) : Option ChatRecord :=
  match b.content with
  | .str s =>
    some { time := b.time, role := b.role, content := some s, len := some b.len,
           token := b.token, web := b.web, think := b.think }
  | .list _ => none

/-- All-or-nothing conversion of a list of built records into store records. -/
def builtToChatRecords : List BuiltAppendRecord → Option (List ChatRecord)
  | [] => some []
  | b :: rest =>
    match builtToChatRecord b, builtToChatRecords rest with
    | some r, some rs => some (r :: rs)
    | _, _ => none

/-- Stable insertion of a record into a time-sorted list, placing it after
records with an equal timestamp (the stability of Python's `list.sort`). -/
def insertByTime (r : ChatRecord) : List ChatRecord → List ChatRecord
  | [] => [r]
  | x :: xs => if x.time ≤ r.time then x :: insertByTime r xs else r :: x :: xs

/-- Stable sort by the `time` key (`chat_records_history.sort(key=...)`). -/
def sortByTime (l : List ChatRecord) : List ChatRecord :=
  l.foldl (fun acc r => insertByTime r acc) []

/-- `FetchRequestAliQwen.append_chat_records_history` on the stored sequence
of one index: normalize and build the new records, extend the stored sequence,
re-sort it by timestamp, then apply eviction through
`get_chat_records_history(..., delete=True)`; the `some` value is the stored
sequence afterwards (or the raised exception). A `none` result marks the one
case this `ChatRecord`-typed store embedding cannot represent: a list input
containing a bare string, where the `{'content': records}` path (see
`C5_append_list_content_eval`) makes the source store the raw input list as a
record's content — the source itself still succeeds there, leaving a
non-string content value in the store. -/
def append_chat_records_history (self_max_char self_max_time : Option Int)
    (now_timestamp : Int) (chat_records_history : List ChatRecord)
    (records : AppendRecords) (history_max_char history_max_time : Option Int) :
    Option (Except PyErr (List ChatRecord)) :=
  match builtToChatRecords (appendRecordsOf now_timestamp records) with
  | none => none
  | some new_records =>
    let extended := sortByTime (chat_records_history ++ new_records)
    match get_chat_records_history self_max_char self_max_time now_timestamp extended
        history_max_char history_max_time true with
    | .error e => some (.error e)
    | .ok (_, stored) => some (.ok stored)

/-! ## Request preparation (`FetchRequestAliQwen.request`) -/

/-- One entry of the `messages` list sent upstream: the `role`/`content`
projection of a chat record. -/
structure Msg where
  role : Role
  content : Option String
deriving DecidableEq, Repr

/-- The request body and headers as prepared by `FetchRequestAliQwen.request`
together with the flag-dependent parameters set by `chat` before the dispatch.
`search_citation_mark` holds `enable_citation` of `search_options`, present
only when web search is enabled. -/
structure PreparedRequest where
  model : String
  messages : List Msg
  result_format : String
  temperature : Rat
  presence_penalty : Rat
  enable_search : Bool
  search_citation_mark : Option Bool
  enable_thinking : Bool
  stream : Bool
  sse_header : Bool
  incremental_output : Bool
deriving DecidableEq, Repr

/-- The parameter preparation of `FetchRequestAliQwen.request` applied to the
body `chat` builds: `temperature = self.rand * 2` remapped to `1.99` when it
equals exactly `2`; `presence_penalty = self.rand * 4 - 2`; the SSE header and
`incremental_output` are set exactly when streaming. -/
def request_prepare (rand : Rat) (stream : Bool) (messages : List Msg)
    (web web_mark think : Bool) : PreparedRequest :=
  let json_params_temperature := rand * 2
  let json_params_temperature :=
    if json_params_temperature = 2 then (1.99 : Rat) else json_params_temperature
  { model := "qwen-turbo-latest"
    messages := messages
    result_format := "message"
    temperature := json_params_temperature
    presence_penalty := rand * 4 - 2
    enable_search := web
    search_citation_mark := if web then some web_mark else none
    enable_thinking := think
    stream := stream
    sse_header := stream
    incremental_output := stream }

/-! ## The chat orchestrator (`FetchRequestAliQwen.chat`) -/

/-- The in-memory history store `self.data`, keyed by the (hashable)
conversation index, embedded with `Nat` keys. -/
abbrev Store := List (Nat × List ChatRecord)

/-- Assoc-list lookup in the store. -/
def storeLookup (store : Store) (k : Nat) : Option (List ChatRecord) :=
  match store with
  | [] => none
  | (k', v) :: rest => if k' = k then some v else storeLookup rest k

/-- Assoc-list update in the store (the key is assumed present, as after
`setdefault`); a missing key is appended. -/
def storeSet (store : Store) (k : Nat) (v : List ChatRecord) : Store :=
  match store with
  | [] => [(k, v)]
  | (k', v') :: rest => if k' = k then (k, v) :: rest else (k', v') :: storeSet rest k v

/-- `self.data.setdefault(index, [])`: return the entry for the key, inserting
an empty sequence first when the key is absent. -/
def storeSetdefault (store : Store) (k : Nat) : List ChatRecord × Store :=
  match storeLookup store k with
  | some v => (v, store)
  | none => ([], store ++ [(k, [])])

/-- The history step of `chat` when an index is given: `setdefault` the entry,
then `get_chat_records_history(index, ..., delete=True)`, whose trimming
mutates the stored entry. Returns the trimmed history (or the raised
exception) together with the store as it stands afterwards. -/
def historyPrep (self_max_char self_max_time : Option Int) (now_timestamp : Int)
    (store : Store) (k : Nat) (history_max_char history_max_time : Option Int) :
    Except PyErr (List ChatRecord) × Store :=
  let hist0 := (storeSetdefault store k).1
  let store1 := (storeSetdefault store k).2
  match get_chat_records_history self_max_char self_max_time now_timestamp hist0
      history_max_char history_max_time true with
  | .error e => (.error e, store1)
  | .ok (kept, stored) => (.ok kept, storeSet store1 k stored)

/-- What the transport (`reykit_request` behind `request`) hands back: a
decoded JSON body in the non-streaming path, a line iterator in the streaming
path. -/
inductive TransportResp where
  | json (j : RespJson)
  | lines (ls : List RespLine)

/-- The value returned by a successful `chat` call: the reply record, and in
the streaming path the seeded shared generator state (standing for the
returned pair of generators, both of which read it). -/
structure ChatOutcome where
  reply : ChatRecord
  stream_state : Option StreamState

/-- `FetchRequestAliQwen.chat`. Validation first: an empty `text` and
`think and not stream` each raise `ValueError` before anything else runs (in
particular before the transport is consulted — the transport is a parameter
and the error paths never apply it). Then the extra system text is concatenated
after the session system text, the per-index history is fetched (with
`delete=True`, mutating the store), the message list
`[system?] ++ history ++ [user turn]` is projected to role/content pairs, and
the prepared request is dispatched. A transport error propagates with no
further store mutation. In the streaming path the generator state is seeded
and returned undrained; in the non-streaming path the full record is extracted
and `insert_db` writes exactly one row. In either path, once the reply record
exists, the user turn and the reply record are appended to the stored history
of the index. The third component of the result is the persistence sink's
write log for this call. -/
def chat (sess_system : Option String) (rand : Rat)
    (self_max_char self_max_time : Option Int) (now_timestamp : Int)
    (store : Store) (text : String) (index : Option Nat) (system : Option String)
    (web web_mark think stream : Bool)
    (history_max_char history_max_time : Option Int)
    (transport : PreparedRequest → Except PyErr TransportResp) :
    Except PyErr ChatOutcome × Store × List DbRecord :=
  if text = "" then (.error .valueError, store, [])
  else if think && !stream then (.error .valueError, store, [])
  else
    let system :=
      match system, sess_system with
      | some s, some ss => some (ss ++ s)
      | none, _ => sess_system
      | some s, none => some s
    let prep :=
      match index with
      | some k => historyPrep self_max_char self_max_time now_timestamp store k
          history_max_char history_max_time
      | none => (.ok [], store)
    match prep with
    | (.error e, store1) => (.error e, store1, [])
    | (.ok chat_records_history, store1) =>
      let chat_records_role : List ChatRecord :=
        match system with
        | some s =>
          [{ time := now_timestamp, role := .system, content := some s
             len := some (s.length : Int), token := none, web := none, think := none }]
        | none => []
      let chat_record_now : ChatRecord :=
        { time := now_timestamp, role := .user, content := some text
          len := some (text.length : Int), token := none, web := none, think := none }
      let messages :=
        (chat_records_role ++ chat_records_history ++ [chat_record_now]).map
          fun m => Msg.mk m.role m.content
      let prepared := request_prepare rand stream messages web web_mark think
      match transport prepared with
      | .error e => (.error e, store1, [])
      | .ok resp =>
        match stream, resp with
        | true, .lines ls =>
          match extract_response_generator now_timestamp ls with
          | .error e => (.error e, store1, [])
          | .ok st =>
            let store2 :=
              match index with
              | some k => storeSet store1 k
                  (chat_records_history ++ [chat_record_now, st.reply])
              | none => store1
            (.ok { reply := st.reply, stream_state := some st }, store2, [])
        | false, .json j =>
          match extract_response_record now_timestamp j with
          | .error e => (.error e, store1, [])
          | .ok chat_record_reply =>
            let store2 :=
              match index with
              | some k => storeSet store1 k
                  (chat_records_history ++ [chat_record_now, chat_record_reply])
              | none => store1
            match insert_db chat_record_reply with
            | .error e => (.error e, store2, [])
            | .ok w => (.ok { reply := chat_record_reply, stream_state := none }, store2, [w])
        | _, _ => (.error .typeError, store1, [])

/-! ## Claims -/

/-- C8: every request body the client sends carries
`temperature = rand * 2`, except that the exact boundary value `2`
(reached only at `rand = 1`) is remapped to `1.99`, and
`presence_penalty = rand * 4 - 2`. `chat` dispatches exactly the body built by
`request_prepare`. -/
theorem C8_request_params (rand : Rat) (stream : Bool) (messages : List Msg)
    (web web_mark think : Bool) :
    (request_prepare rand stream messages web web_mark think).temperature
        = (if rand = 1 then (1.99 : Rat) else rand * 2) ∧
    (request_prepare rand stream messages web web_mark think).presence_penalty
        = rand * 4 - 2 := by
  refine ⟨?_, rfl⟩
  simp only [request_prepare]
  rcases eq_or_ne rand 1 with h | h
  · subst h
    norm_num
  · have h2 : rand * 2 ≠ 2 := by
      intro hc
      exact h (by linarith)
    simp [h, h2]

/-- C10: `insert_db` fails (the lookup `record['token']['total']` on an absent
token value raises) before any write when the reply record's token usage is
absent, and every row it does produce carries the total, input and output
counts of the record's present token value. -/
theorem C10_insert_guard :
    (∀ record : ChatRecord, record.token = none → insert_db record = .error .typeError) ∧
    (∀ (record : ChatRecord) (w : DbRecord), insert_db record = .ok w →
      ∃ tk, record.token = some tk ∧ w.token_total = tk.total ∧
        w.token_input = tk.input ∧ w.token_output = tk.output) := by
  constructor
  · intro record h
    simp [insert_db, h]
  · intro record w h
    cases htk : record.token with
    | none => simp [insert_db, htk] at h
    | some tk =>
      simp only [insert_db, htk, Except.ok.injEq] at h
      subst h
      exact ⟨tk, rfl, rfl, rfl, rfl⟩

/-- Closed instance of `C10_insert_guard`: a record with absent token usage
makes `insert_db` fail with the subscripting error. -/
theorem C10_insert_guard_witness :
    insert_db { time := 0, role := .assistant, content := none, len := none,
                token := none, web := none, think := none } = .error .typeError :=
  C10_insert_guard.1 _ rfl

/-- C9 counterexample: the claim says `extract_response_web` returns the
absent value rather than raising on every JSON-decoded response object with no
search results, but on an object lacking the `output` key (e.g. a usage-only
stream chunk, a shape the sibling extractor `extract_response_text` explicitly
anticipates) the direct indexing `response_json['output']` raises `KeyError`. -/
theorem C9_counterexample :
    extract_response_web { output := none, usage := none } = .error .keyError := rfl

/-- C9 (amended): for every response object whose `output` block is present,
`extract_response_web` returns the absent value when there are no search
results and otherwise the normalized item list, in which the site and icon
fields are absent exactly when the upstream field is an empty string or
missing (index, url and title are preserved); an object lacking the `output`
block instead raises a key error (see the counterexample). -/
theorem C9_web_extraction :
    (∀ (response_json : RespJson) (o : RespOutput), response_json.output = some o →
       extract_response_web response_json =
         .ok (if o.search_results = [] then none
              else some (o.search_results.map normWebItem))) ∧
    (∀ item : SearchResultItem,
       ((normWebItem item).site = none ↔ item.site_name = none ∨ item.site_name = some "") ∧
       ((normWebItem item).icon = none ↔ item.icon = none ∨ item.icon = some "") ∧
       (normWebItem item).index = item.index ∧
       (normWebItem item).url = item.url ∧
       (normWebItem item).title = item.title) := by
  constructor
  · intro response_json o h
    simp only [extract_response_web, h]
    cases hsr : o.search_results with
    | nil => simp
    | cons a as => simp
  · intro item
    refine ⟨?_, ?_, rfl, rfl, rfl⟩
    · cases h : item.site_name with
      | none => simp [normWebItem, h]
      | some s =>
        by_cases hs : s = "" <;> simp [normWebItem, h, hs]
    · cases h : item.icon with
      | none => simp [normWebItem, h]
      | some s =>
        by_cases hs : s = "" <;> simp [normWebItem, h, hs]

/-- Closed instance of `C9_web_extraction`: an object with an `output` block
and no search results yields the absent value. -/
theorem C9_web_extraction_witness :
    extract_response_web
        { output := some { message := { content := none, reasoning_content := none },
                           search_results := [] },
          usage := none }
      = .ok none := by
  simpa using C9_web_extraction.1
    { output := some { message := { content := none, reasoning_content := none },
                       search_results := [] },
      usage := none } _ rfl

/-- C5: evaluation of the append normalization at the failing input. For the
list-of-strings input `["x", "y"]` the claim requires two records with
contents `"x"` and `"y"`, each of cached length 1; the source's comprehension
instead builds `{'content': records}` for each string element — `records`
being the WHOLE input list — so both built records hold the entire list as
their content value, with cached length 2 (the element count), contradicting
the source's own `ChatRecordsAppend` and `ChatRecord` TypedDicts (content is
`str` / `str | None`) and its docstring (`list[str]: Message content list`).
The bare-string half of the claim is intact: appending the bare string
`"hello"` builds role `'user'`, content `"hello"`, length 5, timestamp
defaulting to now, and (appended to an empty history with no limits
configured) is stored exactly so. -/
theorem C5_append_list_content_eval :
    (∀ now_timestamp : Int,
       appendRecordsOf now_timestamp (.list [.inl "x", .inl "y"]) =
         [{ time := now_timestamp, role := .user,
            content := .list [.inl "x", .inl "y"], len := 2,
            token := none, web := none, think := none },
          { time := now_timestamp, role := .user,
            content := .list [.inl "x", .inl "y"], len := 2,
            token := none, web := none, think := none }]) ∧
    (∀ now_timestamp : Int,
       appendRecordsOf now_timestamp (.str "hello") =
         [{ time := now_timestamp, role := .user, content := .str "hello", len := 5,
            token := none, web := none, think := none }]) ∧
    (∀ now_timestamp : Int,
       append_chat_records_history none none now_timestamp [] (.str "hello") none none =
         some (.ok [{ time := now_timestamp, role := .user, content := some "hello",
                      len := some 5, token := none, web := none, think := none }])) :=
  ⟨fun n => rfl, fun n => rfl, fun n => rfl⟩

/-- C7: `chat` fails with a validation error, for every transport (so before
any dispatch) and with the store untouched and nothing persisted, whenever the
user text is empty or reasoning mode is requested without streaming mode. -/
theorem C7_validation (sess_system : Option String) (rand : Rat)
    (self_max_char self_max_time : Option Int) (now_timestamp : Int) (store : Store)
    (text : String) (index : Option Nat) (system : Option String)
    (web web_mark think stream : Bool) (history_max_char history_max_time : Option Int)
    (transport : PreparedRequest → Except PyErr TransportResp)
    (h : text = "" ∨ (think = true ∧ stream = false)) :
    chat sess_system rand self_max_char self_max_time now_timestamp store text index
        system web web_mark think stream history_max_char history_max_time transport
      = (.error .valueError, store, []) := by
  rcases h with h | ⟨ht, hs⟩
  · simp [chat, h]
  · subst ht
    subst hs
    by_cases h0 : text = "" <;> simp [chat, h0]

/-- Closed instance of `C7_validation`: empty user text fails validation with
no store change and no write. -/
theorem C7_validation_witness :
    chat none (1 / 2 : Rat) none none 0 [] "" none none false false false false none none
        (fun _ => .error .keyError)
      = (.error .valueError, [], []) :=
  C7_validation none (1 / 2 : Rat) none none 0 [] "" none none false false false false
    none none (fun _ => .error .keyError) (Or.inl rfl)

/-- Whatever `get_chat_records_history` returns was obtained from the stored
sequence by dropping records only from the oldest end. -/
theorem get_chat_records_history_suffix {self_max_char self_max_time : Option Int}
    {now_timestamp : Int} {history : List ChatRecord}
    {history_max_char history_max_time : Option Int} {delete : Bool}
    {kept stored : List ChatRecord}
    (h : get_chat_records_history self_max_char self_max_time now_timestamp history
          history_max_char history_max_time delete = .ok (kept, stored)) :
    kept.IsSuffix history := by
  simp only [get_chat_records_history] at h
  split at h
  · exact absurd h (by simp)
  · simp only [Except.ok.injEq, Prod.mk.injEq] at h
    rw [← h.1]
  · simp only [Except.ok.injEq, Prod.mk.injEq] at h
    rw [← h.1]
    exact List.drop_suffix _ _

/-- With `delete = True`, the stored sequence after
`get_chat_records_history` equals the returned sequence. -/
theorem get_chat_records_history_delete_eq {self_max_char self_max_time : Option Int}
    {now_timestamp : Int} {history : List ChatRecord}
    {history_max_char history_max_time : Option Int}
    {kept stored : List ChatRecord}
    (h : get_chat_records_history self_max_char self_max_time now_timestamp history
          history_max_char history_max_time true = .ok (kept, stored)) :
    stored = kept := by
  simp only [get_chat_records_history] at h
  split at h
  · exact absurd h (by simp)
  · simp only [Except.ok.injEq, Prod.mk.injEq] at h
    rw [← h.1, ← h.2]
  · simp only [Except.ok.injEq, Prod.mk.injEq, if_true] at h
    rw [← h.1, ← h.2]

/-- Looking up a key just written by `storeSet` yields the written value. -/
theorem storeLookup_storeSet (store : Store) (k : Nat) (v : List ChatRecord) :
    storeLookup (storeSet store k v) k = some v := by
  induction store with
  | nil => simp [storeSet, storeLookup]
  | cons hd tl ih =>
    obtain ⟨k', v'⟩ := hd
    by_cases h : k' = k <;> simp [storeSet, storeLookup, h, ih]

/-- C6 counterexample: the claim says that when `chat` with a conversation key
fails at dispatch, the new user turn has already been appended to the
in-memory history; but the source appends `chat_record_now` only after
`self.request` returns, so a transport failure leaves the stored history
without the user turn — here the key-0 history is still empty afterwards. -/
theorem C6_counterexample :
    chat none (1 / 2 : Rat) none none 0 [(0, [])] "hi" (some 0) none
        false false false false none none
        (fun _ => .error (.assertionError "network"))
      = (.error (.assertionError "network"), [(0, [])], []) := rfl

/-- C6 (amended): when a `chat` call with a conversation key fails at the
dispatch step, the transport error propagates, nothing is persisted, and the
new user turn has NOT been appended to the in-memory history — the only
mutation made before the failing step is the `delete=True` eviction performed
while reading the history, so the stored entry is the evicted sequence `kept`,
a suffix of what was stored before. -/
theorem C6_dispatch_failure (sess_system : Option String) (rand : Rat)
    (self_max_char self_max_time : Option Int) (now_timestamp : Int) (store : Store)
    (text : String) (k : Nat) (system : Option String) (web web_mark think stream : Bool)
    (history_max_char history_max_time : Option Int) (e : PyErr)
    (kept : List ChatRecord) (store1 : Store)
    (htext : text ≠ "") (hts : think = true → stream = true)
    (hprep : historyPrep self_max_char self_max_time now_timestamp store k
        history_max_char history_max_time = (.ok kept, store1)) :
    chat sess_system rand self_max_char self_max_time now_timestamp store text (some k)
        system web web_mark think stream history_max_char history_max_time
        (fun _ => .error e)
      = (.error e, store1, []) ∧
    storeLookup store1 k = some kept ∧
    kept.IsSuffix (storeSetdefault store k).1 := by
  have hbool : (think && !stream) = false := by
    cases think with
    | false => rfl
    | true => rw [hts rfl]; rfl
  have hget := hprep
  simp only [historyPrep] at hget
  constructor
  · simp only [chat, if_neg htext, hbool, Bool.false_eq_true, if_false, hprep]
  · split at hget
    · exact absurd hget (by simp)
    · rename_i kept' stored hok
      simp only [Prod.mk.injEq, Except.ok.injEq] at hget
      obtain ⟨hk, hs⟩ := hget
      subst hk
      subst hs
      have hde := get_chat_records_history_delete_eq hok
      subst hde
      exact ⟨storeLookup_storeSet _ _ _, get_chat_records_history_suffix hok⟩

/-- Closed instance of `C6_dispatch_failure`: a dispatch failure with key 0
leaves the (empty) history without the user turn and persists nothing. -/
theorem C6_dispatch_failure_witness :
    chat none (1 / 2 : Rat) none none 0 [(0, [])] "hi" (some 0) none
        false false false false none none (fun _ => .error .keyError)
      = (.error .keyError, [(0, [])], []) ∧
    storeLookup [(0, [])] 0 = some [] ∧
    List.IsSuffix [] (storeSetdefault [(0, [])] 0).1 :=
  C6_dispatch_failure none (1 / 2 : Rat) none none 0 [(0, [])] "hi" 0 none
    false false false false none none .keyError [] [(0, [])]
    (by decide) (fun h => nomatch h) rfl

/-! ### Invariants of the generator pair -/

/-- A successful seeding records the `is_think_emptied` flag as the falsiness
of the seed record's think text, and starts with an empty write log. -/
theorem extract_response_generator_seed {tnow : Int} {lines : List RespLine}
    {st : StreamState}
    (h : extract_response_generator tnow lines = .ok st) :
    st.is_think_emptied = !pyTruthy st.reply.think ∧ st.writes = [] := by
  simp only [extract_response_generator] at h
  split at h
  · exact absurd h (by simp)
  · split at h
    · exact absurd h (by simp)
    · simp only [Except.ok.injEq] at h
      subst h
      exact ⟨rfl, rfl⟩

/-- A first pull that yields leaves the line cursor, the write log and the
`is_think_emptied` flag unchanged and only applies the content/think
defaulting to the shared record. -/
theorem generator_start_yield_inv {mode : GenMode} {st : StreamState} {s : String}
    {st' : StreamState} (h : generator_start mode st = .yield s st') :
    st'.lines = st.lines ∧ st'.reply = genDefaults st.reply ∧
    st'.is_think_emptied = st.is_think_emptied ∧ st'.writes = st.writes := by
  cases mode <;> simp only [generator_start] at h
  · split at h
    · simp only [GenResult.yield.injEq] at h
      rw [← h.2]
      exact ⟨rfl, rfl, rfl, rfl⟩
    · exact absurd h (by simp)
  · simp only [GenResult.yield.injEq] at h
    rw [← h.2]
    exact ⟨rfl, rfl, rfl, rfl⟩

/-- The text generator's first pull raises the ordering violation exactly when
the think sequence is not yet marked emptied. -/
theorem generator_start_text_err {st : StreamState}
    (h : st.is_think_emptied = false) :
    generator_start .text st =
      .err (.assertionError "must first used up think generator")
        { st with reply := genDefaults st.reply } := by
  simp [generator_start, h]

/-- A resumed pull that yields leaves the write log and the
`is_think_emptied` flag unchanged (the flag is changed only by the think
generator's terminating break, which ends the sequence rather than yield). -/
theorem generator_resume_yield_inv (mode : GenMode) :
    ∀ (lines : List RespLine) (reply : ChatRecord) (emp : Bool) (ws : List DbRecord)
      (s : String) (st' : StreamState),
      generator_resume mode ⟨lines, reply, emp, ws⟩ = .yield s st' →
      st'.writes = ws ∧ st'.is_think_emptied = emp := by
  intro lines
  induction lines with
  | nil =>
    intro reply emp ws s st' h
    simp only [generator_resume] at h
    split at h <;> exact absurd h (by simp)
  | cons hd tl ih =>
    intro reply emp ws s st' h
    cases hd with
    | noise =>
      simp only [generator_resume] at h
      exact ih _ _ _ _ _ h
    | data j =>
      cases mode with
      | text =>
        simp only [generator_resume] at h
        split at h
        · exact absurd h (by simp)
        · exact ih _ _ _ _ _ h
        · simp only [GenResult.yield.injEq] at h
          rw [← h.2]
          exact ⟨rfl, rfl⟩
      | think =>
        simp only [generator_resume] at h
        split at h
        · exact absurd h (by simp)
        · exact absurd h (by simp)
        · simp only [GenResult.yield.injEq] at h
          rw [← h.2]
          exact ⟨rfl, rfl⟩

/-- Along any run of pulls that has only yielded so far, the write log and the
`is_think_emptied` flag are those of the seeded state. -/
theorem GenLive_inv {mode : GenMode} {st st' : StreamState}
    (h : GenLive mode st st') :
    st'.writes = st.writes ∧ st'.is_think_emptied = st.is_think_emptied := by
  induction h with
  | start hs =>
    have hi := generator_start_yield_inv hs
    exact ⟨hi.2.2.2, hi.2.2.1⟩
  | next hl hr ih =>
    rename_i a b s
    obtain ⟨la, ra, ea, wa⟩ := a
    have hi := generator_resume_yield_inv _ _ _ _ _ _ _ hr
    exact ⟨hi.1.trans ih.1, hi.2.trans ih.2⟩

/-- C2: when the seed stream chunk carried non-empty reasoning text, pulling
the first element from the reply generator — from the seeded state or from any
state the think generator has reached by yielding without having terminated —
raises the ordering violation `AssertionError` `'must first used up think
generator'`; when the seed carried no reasoning text, the reply generator's
first pull succeeds immediately, yielding the seed content. -/
theorem C2_ordering (tnow : Int) (lines : List RespLine) (st : StreamState)
    (hseed : extract_response_generator tnow lines = .ok st) :
    (pyTruthy st.reply.think = true →
      ∀ st', st' = st ∨ GenLive .think st st' →
        ∃ st'', generator_start .text st' =
          .err (.assertionError "must first used up think generator") st'') ∧
    (pyTruthy st.reply.think = false →
      ∃ st'', generator_start .text st = .yield (st.reply.content.getD "") st'') := by
  have hflag := (extract_response_generator_seed hseed).1
  constructor
  · intro hth st' hst'
    have hemp : st'.is_think_emptied = false := by
      rcases hst' with h | h
      · rw [h, hflag, hth]
        rfl
      · rw [(GenLive_inv h).2, hflag, hth]
        rfl
    exact ⟨_, generator_start_text_err hemp⟩
  · intro hth
    have hemp : st.is_think_emptied = true := by
      rw [hflag, hth]
      rfl
    refine ⟨{ st with reply := genDefaults st.reply }, ?_⟩
    simp [generator_start, hemp, genDefaults]

/-- Closed instance of `C2_ordering`: after seeding from a chunk whose
reasoning text is `"T"`, the reply generator's first pull raises the ordering
violation. -/
theorem C2_ordering_witness :
    ∃ st'', generator_start .text
        { lines := []
          reply := { time := 0, role := .assistant, content := some "", len := some 0,
                     token := none, web := none, think := some "T" }
          is_think_emptied := false
          writes := [] } =
      .err (.assertionError "must first used up think generator") st'' :=
  (C2_ordering 0
      [.data { output := some { message := { content := some "", reasoning_content := some "T" },
                                search_results := [] },
               usage := none }]
      _ rfl).1 rfl _ (Or.inl rfl)

/-- C3: evaluation of the think generator at the failing input. The seed data
chunk carries reply fragment `"A"` (so the accumulated content is `"A"`, with
cached length 1) and reasoning text `"T"`; the next data chunk carries reply
fragment `"B"` and no reasoning text, so it terminates the think sequence. The
claim (and the source's own `len` accumulation) call for the fragment to be
folded into the accumulated content, giving `"AB"` of length 2; the source
instead ASSIGNS `chat_record_reply['content'] = response_text`, leaving
content `"B"` while still incrementing the cached length to 2 — the cached
length no longer equals the content's length. The reasoning-closed flag is
set and the sequence ends without pulling the remaining line (the trailing
noise line is untouched), as the claim states. -/
theorem C3_think_termination_eval :
    (extract_response_generator 0
        [.data { output := some { message := { content := some "A",
                                               reasoning_content := some "T" },
                                  search_results := [] },
                 usage := some { total_tokens := 1, input_tokens := 1,
                                 output_tokens := 0, reasoning_tokens := none } },
         .data { output := some { message := { content := some "B",
                                               reasoning_content := none },
                                  search_results := [] },
                 usage := some { total_tokens := 2, input_tokens := 1,
                                 output_tokens := 1, reasoning_tokens := none } },
         .noise]).map
      (fun st =>
        ((generator_drain .think st).1,
         (generator_drain .think st).2.1.reply.content,
         (generator_drain .think st).2.1.reply.len,
         (generator_drain .think st).2.1.is_think_emptied,
         (generator_drain .think st).2.1.lines,
         (generator_drain .think st).2.2))
    = .ok (["T"], some "B", some 2, true, [.noise], none) := rfl

/-- C1 counterexample: the claim says that over a reply sequence pulled to
exhaustion the sink receives exactly one write with the token field equal to
the last non-absent usage observed; but each data chunk overwrites the token
field with its own extracted usage, absent included, so after a final chunk
with no usage block the drain reaches the exhausted line source with an absent
token, `insert_db` raises, and the sink receives zero writes (while the last
non-absent usage — the seed's — was available). -/
theorem C1_counterexample :
    (extract_response_generator 0
        [.data { output := some { message := { content := some "A",
                                               reasoning_content := none },
                                  search_results := [] },
                 usage := some { total_tokens := 3, input_tokens := 2,
                                 output_tokens := 1, reasoning_tokens := none } },
         .data { output := some { message := { content := some "B",
                                               reasoning_content := none },
                                  search_results := [] },
                 usage := none }]).map
      (fun st =>
        ((generator_drain .text st).1,
         (generator_drain .text st).2.1.writes,
         (generator_drain .text st).2.1.lines,
         (generator_drain .text st).2.2))
    = .ok (["A", "B"], [], [], some .typeError) := rfl

/-- The token value held by the shared record after a run of lines: each data
chunk overwrites it with that chunk's extracted usage (absent included), so the
final value is the last chunk's extraction. Characterization function for
`C1_streaming_persistence`. -/
def lastChunkToken (t0 : Option ChatRecordToken) : List RespLine → Option ChatRecordToken
  | [] => t0
  | .noise :: rest => lastChunkToken t0 rest
  | .data j :: rest => lastChunkToken (extract_response_token j) rest

/-- The first non-absent citation value produced over a run of lines (an
extraction error hit while the slot is still empty propagates).
Characterization function for `C1_streaming_persistence`. -/
def firstChunkWeb : List RespLine → Except PyErr (Option (List ChatResponseWebItem))
  | [] => .ok none
  | .noise :: rest => firstChunkWeb rest
  | .data j :: rest =>
    match extract_response_web j with
    | .error e => .error e
    | .ok none => firstChunkWeb rest
    | .ok (some w) => .ok (some w)

/-- A successful token/web update sets the token to this chunk's extraction,
keeps a present citation value, fills an absent one from this chunk, and
leaves content, length and think untouched. -/
theorem updateTokenWeb_inv {j : RespJson} {reply reply' : ChatRecord}
    (h : updateTokenWeb j reply = .ok reply') :
    reply'.token = extract_response_token j ∧
    (reply.web = none → extract_response_web j = .ok reply'.web) ∧
    (∀ w0, reply.web = some w0 → reply'.web = some w0) ∧
    reply'.content = reply.content ∧ reply'.len = reply.len ∧
    reply'.think = reply.think := by
  cases hw : reply.web with
  | some w =>
    simp only [updateTokenWeb, hw, Except.ok.injEq] at h
    subst h
    exact ⟨rfl, fun hc => Option.noConfusion hc, fun w0 h0 => h0, rfl, rfl, rfl⟩
  | none =>
    cases hwx : extract_response_web j with
    | error e =>
      simp only [updateTokenWeb, hw, hwx] at h
      exact Except.noConfusion h
    | ok response_web =>
      simp only [updateTokenWeb, hw, hwx, Except.ok.injEq] at h
      subst h
      exact ⟨rfl, fun _ => rfl, fun w0 h0 => Option.noConfusion h0, rfl, rfl, rfl⟩

/-- A successful text-mode chunk step carries the `updateTokenWeb` invariants
through (the content/length accumulation touches neither token nor web). -/
theorem textChunkStep_inv {j : RespJson} {reply reply' : ChatRecord}
    {oy : Option String}
    (h : textChunkStep j reply = .ok (reply', oy)) :
    reply'.token = extract_response_token j ∧
    (reply.web = none → extract_response_web j = .ok reply'.web) ∧
    (∀ w0, reply.web = some w0 → reply'.web = some w0) := by
  cases hu : updateTokenWeb j reply with
  | error e =>
    simp only [textChunkStep, hu] at h
    exact Except.noConfusion h
  | ok r1 =>
    have hu' := updateTokenWeb_inv hu
    cases ht : extract_response_text j with
    | error e =>
      simp only [textChunkStep, hu, ht] at h
      exact Except.noConfusion h
    | ok ot =>
      cases ot with
      | none =>
        simp only [textChunkStep, hu, ht, Except.ok.injEq, Prod.mk.injEq] at h
        rw [← h.1]
        exact ⟨hu'.1, hu'.2.1, hu'.2.2.1⟩
      | some t =>
        cases hc : r1.content with
        | none =>
          simp only [textChunkStep, hu, ht, hc] at h
          exact Except.noConfusion h
        | some c =>
          cases hl : r1.len with
          | none =>
            simp only [textChunkStep, hu, ht, hc, hl] at h
            exact Except.noConfusion h
          | some l =>
            simp only [textChunkStep, hu, ht, hc, hl, Except.ok.injEq, Prod.mk.injEq] at h
            rw [← h.1]
            exact ⟨hu'.1, hu'.2.1, hu'.2.2.1⟩

/-- Draining the text generator's loop to a normal completion: the write log
gains exactly the one record handed to `insert_db` at exhaustion of the line
source; the final token is the last chunk's extraction; a present citation
value is kept and an absent one is the first non-absent value among the
remaining chunks. -/
theorem generator_drain_loop_text_ok :
    ∀ (lines : List RespLine) (reply : ChatRecord) (emp : Bool) (ws : List DbRecord)
      (ys : List String) (stf : StreamState),
      generator_drain_loop .text lines reply emp ws = (ys, stf, none) →
      (∃ w, stf.writes = ws ++ [w] ∧ insert_db stf.reply = .ok w) ∧
      stf.lines = [] ∧
      stf.reply.token = lastChunkToken reply.token lines ∧
      (reply.web = none → firstChunkWeb lines = .ok stf.reply.web) ∧
      (∀ w0, reply.web = some w0 → stf.reply.web = some w0) := by
  intro lines
  induction lines with
  | nil =>
    intro reply emp ws ys stf h
    simp only [generator_drain_loop] at h
    cases hins : insert_db reply with
    | error e =>
      rw [hins] at h
      exact absurd h (by simp)
    | ok w =>
      rw [hins] at h
      simp only [Prod.mk.injEq] at h
      rw [← h.2.1]
      exact ⟨⟨w, rfl, hins⟩, rfl, rfl, fun hwn => by simp [firstChunkWeb, hwn],
        fun w0 h0 => h0⟩
  | cons hd tl ih =>
    intro reply emp ws ys stf h
    cases hd with
    | noise =>
      simp only [generator_drain_loop] at h
      have := ih _ _ _ _ _ h
      exact ⟨this.1, this.2.1, this.2.2.1, this.2.2.2.1, this.2.2.2.2⟩
    | data j =>
      simp only [generator_drain_loop] at h
      cases hstep : textChunkStep j reply with
      | error e =>
        rw [hstep] at h
        exact absurd h (by simp)
      | ok p =>
        obtain ⟨reply', oy⟩ := p
        rw [hstep] at h
        have hinv := textChunkStep_inv hstep
        have hnext :
            ∀ ys', generator_drain_loop .text tl reply' emp ws = (ys', stf, none) →
              (∃ w, stf.writes = ws ++ [w] ∧ insert_db stf.reply = .ok w) ∧
              stf.lines = [] ∧
              stf.reply.token = lastChunkToken reply.token (.data j :: tl) ∧
              (reply.web = none → firstChunkWeb (.data j :: tl) = .ok stf.reply.web) ∧
              (∀ w0, reply.web = some w0 → stf.reply.web = some w0) := by
          intro ys' h'
          have hi := ih _ _ _ _ _ h'
          refine ⟨hi.1, hi.2.1, ?_, ?_, ?_⟩
          · rw [hi.2.2.1, hinv.1, lastChunkToken]
          · intro hwn
            have hw := hinv.2.1 hwn
            simp only [firstChunkWeb, hw]
            cases hrw : reply'.web with
            | none => exact hi.2.2.2.1 hrw
            | some wv => rw [hi.2.2.2.2 wv hrw]
          · intro w0 h0
            exact hi.2.2.2.2 w0 (hinv.2.2 w0 h0)
        cases oy with
        | none => exact hnext _ h
        | some t =>
          have h2 : (generator_drain_loop .text tl reply' emp ws).2 = (stf, none) :=
            congrArg Prod.snd h
          exact hnext _ (by rw [← h2])

/-- The first pull of the reply generator never completes the sequence. -/
theorem generator_start_ne_done (mode : GenMode) (st st1 : StreamState) :
    generator_start mode st ≠ .done st1 := by
  cases mode <;> simp only [generator_start]
  · split <;> simp
  · simp

/-- C1 (amended): across a full drain of the reply generator, the write to the
persistence sink happens only at exhaustion of the line source. When the drain
completes without raising, the sink receives exactly one write — the record
handed to `insert_db`, whose token field is the usage extracted from the LAST
data chunk (every chunk overwrites it, absent usage included; a final chunk
without usage makes the drain raise instead, with zero writes — see the
counterexample) and whose citation field is the first non-absent citation
value (a value already captured at seeding is kept, otherwise the first
non-absent value among the remaining chunks is taken). If the caller stops
pulling before exhaustion — the generator has only yielded so far — the write
log is unchanged, so no write has occurred. -/
theorem C1_streaming_persistence (st : StreamState) :
    (∀ ys stf, generator_drain .text st = (ys, stf, none) →
       (∃ w, stf.writes = st.writes ++ [w] ∧ insert_db stf.reply = .ok w) ∧
       stf.lines = [] ∧
       stf.reply.token = lastChunkToken st.reply.token st.lines ∧
       (st.reply.web = none → firstChunkWeb st.lines = .ok stf.reply.web) ∧
       (∀ w0, st.reply.web = some w0 → stf.reply.web = some w0)) ∧
    (∀ st', GenLive .text st st' → st'.writes = st.writes) := by
  constructor
  · intro ys stf h
    simp only [generator_drain] at h
    cases hs : generator_start .text st with
    | err e st1 =>
      rw [hs] at h
      exact absurd h (by simp)
    | done st1 => exact absurd hs (generator_start_ne_done _ _ _)
    | yield s st1 =>
      rw [hs] at h
      have hsi := generator_start_yield_inv hs
      have h2 :
          (generator_drain_loop .text st1.lines st1.reply st1.is_think_emptied
            st1.writes).2 = (stf, none) := congrArg Prod.snd h
      have hl := generator_drain_loop_text_ok _ _ _ _ _ _ (by rw [← h2])
      rw [hsi.1, hsi.2.1, hsi.2.2.2] at hl
      exact hl
  · intro st' hlive
    exact (GenLive_inv hlive).1

/-- Closed instance of `C1_streaming_persistence`: a seeded state (token
present, seed content `"A"`) followed by one data chunk carrying usage and
fragment `"B"` drains to exhaustion with exactly one write. -/
theorem C1_streaming_persistence_witness :
    ∃ w, ((generator_drain .text
        { lines := [.data { output := some { message := { content := some "B",
                                                          reasoning_content := none },
                                             search_results := [] },
                            usage := some { total_tokens := 3, input_tokens := 2,
                                            output_tokens := 1, reasoning_tokens := none } }]
          reply := { time := 0, role := .assistant, content := some "A", len := some 1,
                     token := some { total := 1, input := 1, output := 0,
                                     output_think := none },
                     web := none, think := none }
          is_think_emptied := true
          writes := [] }).2.1).writes = ([] : List DbRecord) ++ [w] ∧
      insert_db ((generator_drain .text
        { lines := [.data { output := some { message := { content := some "B",
                                                          reasoning_content := none },
                                             search_results := [] },
                            usage := some { total_tokens := 3, input_tokens := 2,
                                            output_tokens := 1, reasoning_tokens := none } }]
          reply := { time := 0, role := .assistant, content := some "A", len := some 1,
                     token := some { total := 1, input := 1, output := 0,
                                     output_think := none },
                     web := none, think := none }
          is_think_emptied := true
          writes := [] }).2.1).reply = .ok w :=
  ((C1_streaming_persistence
    { lines := [.data { output := some { message := { content := some "B",
                                                      reasoning_content := none },
                                         search_results := [] },
                        usage := some { total_tokens := 3, input_tokens := 2,
                                        output_tokens := 1, reasoning_tokens := none } }]
      reply := { time := 0, role := .assistant, content := some "A", len := some 1,
                 token := some { total := 1, input := 1, output := 0,
                                 output_think := none },
                 web := none, think := none }
      is_think_emptied := true
      writes := [] }).1 _ _ rfl).1

/-! ### History eviction bounds -/

/-- Cumulative cached content length of a record list (the `len` fields summed
as the scan's `char_len` does; an absent field counts 0 here, and the eviction
theorems separately establish that every summed field is present). -/
def sumLen (l : List ChatRecord) : Int :=
  (l.map fun r => r.len.getD 0).sum

theorem sumLen_cons (r : ChatRecord) (l : List ChatRecord) :
    sumLen (r :: l) = r.len.getD 0 + sumLen l := by
  simp [sumLen]

theorem sumLen_reverse (l : List ChatRecord) : sumLen l.reverse = sumLen l := by
  rw [sumLen, sumLen, List.map_reverse, List.sum_reverse]

/-- When the character-budget scan finds no trigger over a non-empty list, all
cached lengths were present and the whole cumulative length fits the budget. -/
theorem findBeyond_char_ok_none (tnow mc : Int) :
    ∀ (l : List ChatRecord) (acc : Int),
      findBeyond tnow (some mc) none l acc = .ok none →
      l = [] ∨ (acc + sumLen l ≤ mc ∧ ∀ r ∈ l, r.len ≠ none) := by
  intro l
  induction l with
  | nil => exact fun acc h => Or.inl rfl
  | cons r rest ih =>
    intro acc h
    cases hl : r.len with
    | none =>
      simp only [findBeyond, hl] at h
      exact Except.noConfusion h
    | some lr =>
      by_cases hlt : mc < acc + lr
      · simp [findBeyond, hl, hlt] at h
      · simp only [findBeyond, hl, if_neg hlt] at h
        cases hrec : findBeyond tnow (some mc) none rest (acc + lr) with
        | error e =>
          rw [hrec] at h
          exact Except.noConfusion h
        | ok oi =>
          rw [hrec] at h
          cases oi with
          | some i => simp at h
          | none =>
            refine Or.inr ⟨?_, ?_⟩
            · rcases ih (acc + lr) hrec with hrest | ⟨hsum, _⟩
              · subst hrest
                rw [sumLen_cons, hl]
                simp only [Option.getD_some, sumLen, List.map_nil, List.sum_nil]
                linarith [not_lt.mp hlt]
              · rw [sumLen_cons, hl]
                simp only [Option.getD_some]
                linarith
            · intro x hx
              rcases List.mem_cons.mp hx with hx | hx
              · rw [hx, hl]
                exact fun hc => Option.noConfusion hc
              · rcases ih (acc + lr) hrec with hrest | ⟨_, hmem⟩
                · subst hrest
                  exact absurd hx (List.not_mem_nil x)
                · exact hmem x hx

/-- When the character-budget scan triggers at index `i`, the scanned list
splits as `pre ++ r :: post` with `pre` of length `i`: the records of `pre`
all carry present lengths and fit the budget together with the accumulator
(when `i > 0`), and adding the trigger record `r`'s present length exceeds
it. -/
theorem findBeyond_char_ok_some (tnow mc : Int) :
    ∀ (l : List ChatRecord) (acc : Int) (i : Nat),
      findBeyond tnow (some mc) none l acc = .ok (some i) →
      ∃ pre r post, l = pre ++ r :: post ∧ pre.length = i ∧
        (∀ x ∈ pre, x.len ≠ none) ∧
        (∃ lr, r.len = some lr ∧ mc < acc + sumLen pre + lr) ∧
        (0 < i → acc + sumLen pre ≤ mc) := by
  intro l
  induction l with
  | nil =>
    intro acc i h
    simp [findBeyond] at h
  | cons r rest ih =>
    intro acc i h
    cases hl : r.len with
    | none =>
      simp only [findBeyond, hl] at h
      exact Except.noConfusion h
    | some lr =>
      by_cases hlt : mc < acc + lr
      · simp only [findBeyond, hl, if_pos hlt, Except.ok.injEq, Option.some.injEq] at h
        subst h
        refine ⟨[], r, rest, rfl, rfl, by simp, ⟨lr, hl, ?_⟩, by simp⟩
        simpa [sumLen] using hlt
      · simp only [findBeyond, hl, if_neg hlt] at h
        cases hrec : findBeyond tnow (some mc) none rest (acc + lr) with
        | error e =>
          rw [hrec] at h
          exact Except.noConfusion h
        | ok oi =>
          rw [hrec] at h
          cases oi with
          | none => simp at h
          | some i' =>
            simp only [Except.ok.injEq, Option.some.injEq] at h
            subst h
            obtain ⟨pre', rr, post', hsplit, hlen, hmem, ⟨lrr, hlr, hbound⟩, hprev⟩ :=
              ih _ _ hrec
            refine ⟨r :: pre', rr, post', by simp [hsplit], by simp [hlen], ?_, ⟨lrr, hlr, ?_⟩, ?_⟩
            · intro x hx
              rcases List.mem_cons.mp hx with hx | hx
              · rw [hx, hl]
                exact fun hc => Option.noConfusion hc
              · exact hmem x hx
            · rw [sumLen_cons, hl]
              simp only [Option.getD_some]
              linarith
            · intro _
              rw [sumLen_cons, hl]
              simp only [Option.getD_some]
              rcases Nat.eq_zero_or_pos i' with hz | hp
              · have hpre : pre' = [] := List.length_eq_zero.mp (hlen.trans hz)
                subst hpre
                simp only [sumLen, List.map_nil, List.sum_nil]
                linarith [not_lt.mp hlt]
              · linarith [hprev hp]

/-- C4: for a stored history and any call to `get_chat_records_history` with a
configured (non-negative) character budget and no age limit, the
returned sequence's cumulative cached length fits the budget, its length
fields are all present, it is a suffix of the stored sequence (records are
trimmed only from the oldest end), the stored sequence afterwards is the
trimmed one exactly when `delete` is set, and trimming is minimal: when
anything was trimmed, putting back the newest trimmed record already exceeds
the budget. (`append_chat_records_history` applies its eviction through this
same call with `delete = true`.) -/
theorem C4_history_eviction (self_max_char : Option Int) (now_timestamp : Int)
    (history : List ChatRecord) (mc : Int) (delete : Bool)
    (kept stored : List ChatRecord)
    (hmc : 0 ≤ mc)
    (h : get_chat_records_history self_max_char none now_timestamp history
          (some mc) none delete = .ok (kept, stored)) :
    sumLen kept ≤ mc ∧
    (∀ r ∈ kept, r.len ≠ none) ∧
    kept.IsSuffix history ∧
    stored = (if delete then kept else history) ∧
    (kept ≠ history →
      ∃ rb, (rb :: kept).IsSuffix history ∧
        ∃ lr, rb.len = some lr ∧ mc < sumLen kept + lr) := by
  simp only [get_chat_records_history, resolveOpt, Option.map_none'] at h
  cases hfb : findBeyond now_timestamp (some mc) none history.reverse 0 with
  | error e =>
    rw [hfb] at h
    exact Except.noConfusion h
  | ok oi =>
    rw [hfb] at h
    cases oi with
    | none =>
      simp only [Except.ok.injEq, Prod.mk.injEq] at h
      obtain ⟨hk, hs⟩ := h
      subst hk
      subst hs
      have hnone := findBeyond_char_ok_none now_timestamp mc history.reverse 0 hfb
      have hfit : sumLen history ≤ mc := by
        rcases hnone with hnil | ⟨hsum, _⟩
        · rw [List.reverse_eq_nil_iff.mp hnil]
          simpa [sumLen] using hmc
        · rw [← sumLen_reverse]
          linarith
      refine ⟨hfit, ?_, List.suffix_refl history, by cases delete <;> rfl,
        fun hne => absurd rfl hne⟩
      intro r hr
      rcases hnone with hnil | ⟨_, hmem⟩
      · rw [List.reverse_eq_nil_iff.mp hnil] at hr
        exact absurd hr (List.not_mem_nil r)
      · exact hmem r (List.mem_reverse.mpr hr)
    | some i =>
      simp only [Except.ok.injEq, Prod.mk.injEq] at h
      obtain ⟨hk, hs⟩ := h
      obtain ⟨pre, rb, post, hsplit, hlen, hmem, ⟨lr, hlr, hbound⟩, hprev⟩ :=
        findBeyond_char_ok_some now_timestamp mc history.reverse 0 i hfb
      have hhist : history = (post.reverse ++ [rb]) ++ pre.reverse := by
        have := congrArg List.reverse hsplit
        rw [List.reverse_reverse] at this
        rw [this]
        simp
      have hkept : kept = pre.reverse := by
        rw [← hk, hhist]
        have harith : ((post.reverse ++ [rb]) ++ pre.reverse).length - i =
            (post.reverse ++ [rb]).length := by
          simp [hlen]
          omega
        rw [harith, List.drop_left]
      have hsum : sumLen kept = sumLen pre := by
        rw [hkept, sumLen_reverse]
      have hfit : sumLen kept ≤ mc := by
        rcases Nat.eq_zero_or_pos i with hz | hp
        · have hpre : pre = [] := List.length_eq_zero.mp (hlen.trans hz)
          rw [hkept, hpre]
          simpa [sumLen] using hmc
        · rw [hsum]
          linarith [hprev hp]
      refine ⟨hfit, ?_, ?_, ?_, fun _ => ⟨rb, ?_, lr, hlr, ?_⟩⟩
      · intro r hr
        rw [hkept] at hr
        exact hmem r (List.mem_reverse.mp hr)
      · exact ⟨post.reverse ++ [rb], by rw [hkept, ← hhist]⟩
      · rw [← hs, hk]
      · refine ⟨post.reverse, ?_⟩
        rw [hkept, hhist]
        simp
      · rw [hsum]
        linarith

/-- Closed instance of `C4_history_eviction`: three stored turns of length 4
under a budget of 10 retain exactly the newest two (total 8 ≤ 10). -/
theorem C4_history_eviction_witness :
    sumLen [{ time := 2, role := .user, content := some "bbbb", len := some 4,
              token := none, web := none, think := none },
            { time := 3, role := .user, content := some "cccc", len := some 4,
              token := none, web := none, think := none }] ≤ 10 :=
  (C4_history_eviction none 100
    [{ time := 1, role := .user, content := some "aaaa", len := some 4,
       token := none, web := none, think := none },
     { time := 2, role := .user, content := some "bbbb", len := some 4,
       token := none, web := none, think := none },
     { time := 3, role := .user, content := some "cccc", len := some 4,
       token := none, web := none, think := none }] 10 true
    [{ time := 2, role := .user, content := some "bbbb", len := some 4,
       token := none, web := none, think := none },
     { time := 3, role := .user, content := some "cccc", len := some 4,
       token := none, web := none, think := none }]
    [{ time := 2, role := .user, content := some "bbbb", len := some 4,
       token := none, web := none, think := none },
     { time := 3, role := .user, content := some "cccc", len := some 4,
       token := none, web := none, think := none }]
    (by norm_num) rfl).1

end Reyfetch
